import Mathlib

/-!
# Portfolio: the Contact form controller, the route table, links and helpers

A shallow embedding of `src/App.jsx`.

* A JavaScript object with string-valued properties is an association list in
  insertion order; reading a property that is absent gives `none` (the
  JavaScript `undefined`).
* The state of the `Contact` component is the three `useState` cells
  (`formData`, `error`, `sent`) together with the part of the browser the
  component talks to: a millisecond clock and the list of pending `setTimeout`
  callbacks (each stored as the time at which it becomes due).
* Each handler runs to completion on the state of the current render, so a
  handler is a function from state to state.
* Anchors, navigation links, projects and skills are the literal data of the
  components, in source order; `cn` is `filter` followed by the loop of `join`.
-/

namespace Portfolio

/-! ## JavaScript objects and truthiness -/

/-- A plain object whose property values are strings, in insertion order. -/
abbrev JSObject := List (String × String)

/-- Property read `o[k]`; `none` stands for `undefined`. -/
def getProp : JSObject → String → Option String
  | [], _ => none
  | (k', v') :: rest, k => if k' = k then some v' else getProp rest k

/-- Object spread followed by one computed key, `{ ...o, [k]: v }`: an existing
property keeps its position and takes the new value, a new one is appended. -/
def spreadSet : JSObject → String → String → JSObject
  | [], k, v => [(k, v)]
  | (k', v') :: rest, k, v =>
      if k' = k then (k, v) :: rest else (k', v') :: spreadSet rest k v

/-- JavaScript truthiness of a string-or-undefined value: `undefined` and the
empty string are falsy, every other string is truthy. -/
def truthy : Option String → Bool
  | none => false
  | some s => s != ""

/-! ## The Contact component -/

/-- State of one mounted `Contact` instance plus its pending timers. -/
structure ContactState where
  /-- The cell `useState({ name: "", email: "", message: "" })`. -/
  formData : JSObject
  /-- The cell `useState("")` holding the warning text. -/
  error : String
  /-- The cell `useState(false)` holding the confirmation flag. -/
  sent : Bool
  /-- Current time in milliseconds. -/
  now : Nat
  /-- Due times of the pending `setTimeout(() => setSent(false), 3000)` calls,
  oldest first. -/
  timers : List Nat
  /-- Whether the component instance is still mounted. -/
  mounted : Bool
  deriving DecidableEq, Repr

/-- The literal `{ name: "", email: "", message: "" }`. -/
def emptyForm : JSObject := [("name", ""), ("email", ""), ("message", "")]

/-- State of a freshly mounted `Contact` at time `0` with no timer pending. -/
def initialState : ContactState :=
  { formData := emptyForm, error := "", sent := false, now := 0, timers := [], mounted := true }

/-- The fixed text passed to `setError` when validation fails. -/
def warningText : String := "⚠️ Please fill in all the required fields."

/-- Delay, in milliseconds, passed to `setTimeout` by `handleSubmit`. -/
def confirmDelay : Nat := 3000

/-- `handleChange`: `setFormData({ ...formData, [e.target.name]: e.target.value })`,
with `key` the event target's `name` and `value` its `value`. -/
def handleChange (s : ContactState) (key value : String) : ContactState :=
  { s with formData := spreadSet s.formData key value }

/-- The guard of `handleSubmit`:
`!formData.name || !formData.email || !formData.message`. -/
def validationFails (fd : JSObject) : Bool :=
  !truthy (getProp fd "name") || !truthy (getProp fd "email") || !truthy (getProp fd "message")

/-- `handleSubmit`: on a failed validation only `setError` runs; otherwise the
error is cleared, the flag is set, the form data is replaced by the empty
literal and a callback is scheduled `confirmDelay` milliseconds ahead. -/
def handleSubmit (s : ContactState) : ContactState :=
  if validationFails s.formData then
    { s with error := warningText }
  else
    { s with
      error := ""
      sent := true
      formData := emptyForm
      timers := s.timers ++ [s.now + confirmDelay] }

/-- The scheduled callback `() => setSent(false)`. -/
def timerCallback (s : ContactState) : ContactState :=
  { s with sent := false }

/-- The three inputs of the form that carry `onChange={handleChange}`. -/
inductive Field where
  | name
  | email
  | message
  deriving DecidableEq, Repr

/-- The `name` attribute of each input. -/
def Field.key : Field → String
  | .name => "name"
  | .email => "email"
  | .message => "message"

/-- What can happen to a `Contact` instance. -/
inductive Event where
  /-- A keystroke in one of the three inputs, giving it the value `v`. -/
  | change (f : Field) (v : String)
  /-- The form's `onSubmit`. -/
  | submit
  /-- The browser runs the pending callback at position `i`. -/
  | fire (i : Nat)
  /-- Time passes by `d` milliseconds. -/
  | advance (d : Nat)
  /-- The component is unmounted (navigation to another route). -/
  | unmount
  deriving DecidableEq, Repr

/-- Unmounting. `Contact` registers no effect and keeps no timer id (the result
of `setTimeout` is dropped and `clearTimeout` is never called), so nothing but
the instance itself goes away. -/
def unmount (s : ContactState) : ContactState :=
  { s with mounted := false }

/-- One transition. Edits and submits need a mounted instance. A callback may
run only once its due time has been reached (`setTimeout` gives a minimum
delay); it leaves the pending list, and its `setSent(false)` reaches the state
only while the instance is mounted. -/
def step (s : ContactState) : Event → Option ContactState
  | .change f v => if s.mounted then some (handleChange s f.key v) else none
  | .submit => if s.mounted then some (handleSubmit s) else none
  | .fire i =>
      match s.timers[i]? with
      | none => none
      | some due =>
          if due ≤ s.now then
            let s1 := { s with timers := s.timers.eraseIdx i }
            some (if s.mounted then timerCallback s1 else s1)
          else none
  | .advance d => some { s with now := s.now + d }
  | .unmount => if s.mounted then some (unmount s) else none

/-- Run a sequence of events; `none` when one of them is not enabled. -/
def run (s : ContactState) : List Event → Option ContactState
  | [] => some s
  | e :: es => (step s e).bind fun s1 => run s1 es

/-- States reachable from the freshly mounted component. -/
def Reachable (s : ContactState) : Prop :=
  ∃ es : List Event, run initialState es = some s

/-- A mounted form at time `0` holding the three given values, no warning, no
confirmation and no pending timer. -/
def formWith (n e m : String) : ContactState :=
  { initialState with formData := [("name", n), ("email", e), ("message", m)] }

/-- Three edits that fill the form with non-empty values. -/
def fillForm : List Event :=
  [.change .name "Ali", .change .email "a@b.com", .change .message "hi"]

/-- Fill and submit at time 0, then fill again and submit at time 2000. -/
def resubmitRun : List Event :=
  fillForm ++ [.submit, .advance 2000] ++ fillForm ++ [.submit]

/-- The form right after a successful submit at time 0. -/
def justSubmitted : ContactState :=
  { initialState with sent := true, timers := [3000] }

/-- The form after a successful submit at time 0 followed by a submit of the
cleared form: the warning and the confirmation are both on. -/
def bothShown : ContactState :=
  { initialState with error := warningText, sent := true, timers := [3000] }

/-- Editing: no warning, no confirmation. -/
def Editing (s : ContactState) : Prop := s.error = "" ∧ s.sent = false

/-- Invalid: the warning is shown, the confirmation is not. -/
def Invalid (s : ContactState) : Prop := s.error ≠ "" ∧ s.sent = false

/-- Submitted: the confirmation is shown, the warning is not. -/
def Submitted (s : ContactState) : Prop := s.sent = true ∧ s.error = ""

/-- Both the confirmation and the warning are shown. -/
def SubmittedInvalid (s : ContactState) : Prop := s.sent = true ∧ s.error ≠ ""

/-- All three fields read as strings (none is `undefined`). -/
def FieldsDefined (s : ContactState) : Prop :=
  ∃ n e m : String, getProp s.formData "name" = some n ∧
    getProp s.formData "email" = some e ∧ getProp s.formData "message" = some m

/-- Time of the latest successful submit along a run that starts in `s`, with
`t` the value before the run. -/
def lastSuccess (s : ContactState) (t : Nat) : List Event → Nat
  | [] => t
  | ev :: es =>
      match step s ev with
      | none => t
      | some s1 =>
          lastSuccess s1
            (if ev = Event.submit ∧ validationFails s.formData = false then s.now else t) es

/-- Events that are neither an edit nor a submit nor an unmount. -/
def Event.isTimerOrClock : Event → Bool
  | .fire _ => true
  | .advance _ => true
  | _ => false

/-! ## The route table -/

/-- The five page components. -/
inductive Page where
  | Home
  | About
  | Projects
  | Skills
  | Contact
  deriving DecidableEq, Repr

/-- One `<Route path=... element=... />`. -/
structure Route where
  path : String
  element : Page
  deriving DecidableEq, Repr

/-- The children of `<Routes>` in `App`, in source order. -/
def routes : List Route :=
  [⟨"/", .Home⟩, ⟨"/about", .About⟩, ⟨"/projects", .Projects⟩, ⟨"/skills", .Skills⟩,
    ⟨"/contact", .Contact⟩]

/-- Modelled from the spec: the route selection performed by the router
library's `Routes`, which is not part of the source. Following "given the
current path, render exactly one matching Page Component" for a table of
parameter-free paths, the pages rendered at `pathname` are the elements of the
entries whose path is `pathname`. -/
def selectPages (pathname : String) : List Page :=
  (routes.filter fun r => r.path == pathname).map fun r => r.element

/-! ## Anchors and links -/

/-- The components that render `<a>` elements. -/
inductive Owner where
  | Footer
  | Projects
  | Contact
  deriving DecidableEq, Repr

/-- One rendered `<a>`: who renders it, its `href`, and its `target` attribute
(`none` when the attribute is not written). -/
structure Anchor where
  owner : Owner
  href : String
  target : Option String
  deriving DecidableEq, Repr

/-- One entry of the `list` of `Projects`. -/
structure Project where
  title : String
  desc : String
  tech : List String
  code : String
  img : String
  deriving DecidableEq, Repr

/-- The literal list inside `Projects`. -/
def projectList : List Project :=
  [ { title := "Portfolio (Bootstrap)", desc := "Responsive portfolio website.",
      tech := ["Bootstrap", "HTML", "CSS"],
      code := "https://github.com/Fatimabutt786/My-portfolio-using-bootstrap",
      img := "/images/portfolio.webp" },
    { title := "Rock‑Paper‑Scissors (C++)", desc := "Console game with clean logic.",
      tech := ["C++", "OOP"],
      code := "https://github.com/Fatimabutt786/Rock-paper-scissor-game-in-c-",
      img := "/images/Rock.jpg" },
    { title := "Random Joke Generator", desc := "Fetch jokes, playful UI.",
      tech := ["JavaScript"],
      code := "https://github.com/Fatimabutt786/Random-joke-generator",
      img := "/images/joke.jpg" },
    { title := "Music_Player (Java)", desc := "OOP‑based library manager.",
      tech := ["Java", "OOP"],
      code := "https://github.com/Fatimabutt786/Music_Player",
      img := "/images/music.webp" },
    { title := "MERN Real‑Estate", desc := "Listings, auth, Firebase hosting.",
      tech := ["Mongo", "Express", "React", "Node", "Firebase"],
      code := "https://github.com/Fatimabutt786/Mern-Real-Estate",
      img := "/images/mern estate.jpg" },
    { title := "Prescripto — Doctor Booking App",
      desc := "Book appointments and manage schedules.",
      tech := ["React", "Node", "Mongo", "Express", "Tailwind"],
      code := "https://github.com/Fatimabutt786/Prescripto",
      img := "/images/presc.png" } ]

/-- The three anchors of `Footer`, in source order: Email, LinkedIn, GitHub. -/
def footerAnchors : List Anchor :=
  [ ⟨.Footer, "mailto:fatimabutt2k23@gmail.com", none⟩,
    ⟨.Footer, "https://www.linkedin.com/in/fatima-shahzad-bb31a529b/", some "_blank"⟩,
    ⟨.Footer, "https://github.com/Fatimabutt786", none⟩ ]

/-- The anchors of `Projects`: one "Code" anchor per entry of the list
(`href={p.code} target="_blank"`), then the "Visit My GitHub" anchor. -/
def projectsAnchors : List Anchor :=
  (projectList.map fun p => (⟨.Projects, p.code, some "_blank"⟩ : Anchor)) ++
    [⟨.Projects, "https://github.com/Fatimabutt786", some "_blank"⟩]

/-- The four anchors of the Quick Links of `Contact`, in source order: the
address, LinkedIn, GitHub, Resume. -/
def contactAnchors : List Anchor :=
  [ ⟨.Contact, "mailto:fatimabutt2k23@gmail.com", none⟩,
    ⟨.Contact, "https://www.linkedin.com/in/fatima-shahzad-bb31a529b/", some "_blank"⟩,
    ⟨.Contact, "https://github.com/Fatimabutt786", some "_blank"⟩,
    ⟨.Contact, "/images/Fatima Butt.pdf", some "_blank"⟩ ]

/-- Every `<a>` of the site. -/
def allAnchors : List Anchor := footerAnchors ++ projectsAnchors ++ contactAnchors

/-- Whether `s` begins with `p`. -/
def beginsWith (p s : String) : Bool := p.toList.isPrefixOf s.toList

/-- An `href` with the `mailto:` scheme. -/
def isMailto (href : String) : Bool := beginsWith "mailto:" href

/-- An `href` that is an absolute http or https URL. -/
def isExternalHttp (href : String) : Bool :=
  beginsWith "http://" href || beginsWith "https://" href

/-- An outbound link: a `mailto:` link or an external http(s) URL. -/
def isOutbound (href : String) : Bool := isMailto href || isExternalHttp href

/-- The `to` of the five `MagneticLink` entries of `Navbar`, in source order. -/
def navbarLinks : List String := ["/", "/about", "/projects", "/skills", "/contact"]

/-- The `to` of the logo `Link` of `Navbar`. -/
def navbarLogo : String := "/"

/-- The `to` of the four `Link` buttons of `Home`, in source order: "Explore
Projects" and "Contact" at the top, "Get in Touch" and "View Projects" in the
closing section. -/
def homeLinks : List String := ["/projects", "/contact", "/contact", "/projects"]

/-- Every `to` of a `Link` in the app: the logo and the `MagneticLink` entries
of `Navbar` and the buttons of `Home`; no other component renders a `Link`. -/
def internalLinks : List String := navbarLogo :: (navbarLinks ++ homeLinks)

/-! ## Skills -/

/-- One entry of `skills`: `{ name, v }`. -/
structure Skill where
  name : String
  v : Int
  deriving DecidableEq, Repr

/-- The literal list inside `Skills`. -/
def skills : List Skill :=
  [⟨"HTML/CSS", 95⟩, ⟨"JavaScript", 85⟩, ⟨"Wix", 90⟩, ⟨"React", 80⟩, ⟨"C++ (OOP/DSA)", 88⟩,
    ⟨"Python", 70⟩]

/-- The template literal that gives the width: the decimal form of `v` followed
by a percent sign. -/
def widthText (s : Skill) : String := toString s.v ++ "%"

/-! ## Scroll reset -/

/-- The argument of one `window.scrollTo` call. -/
structure ScrollRequest where
  top : Int
  behavior : String
  deriving DecidableEq, Repr

/-- What the app shell holds besides the pages: the router's current pathname,
the state of the `Contact` instance, and the `window.scrollTo` calls issued so
far, oldest first. -/
structure AppState where
  pathname : String
  contact : ContactState
  scrollCalls : List ScrollRequest
  deriving DecidableEq, Repr

/-- The body of the effect of `ScrollToTop`:
`window.scrollTo({ top: 0, behavior: "smooth" })`. -/
def scrollEffect (w : AppState) : AppState :=
  { w with scrollCalls := w.scrollCalls ++ [⟨0, "smooth"⟩] }

/-- What `ScrollToTop` returns: `null`, that is, no element. -/
def scrollToTopRender (_pathname : String) : Option Unit := none

/-- Commit of `ScrollToTop` after a render at `w.pathname`, where `prev` is the
pathname of the previous render (`none` on mount): an effect with dependency
list `[pathname]` runs on mount and whenever the pathname differs from the
previous one. -/
def scrollToTopCommit (prev : Option String) (w : AppState) : AppState :=
  if prev = some w.pathname then w else scrollEffect w

/-- A navigation to `p`: the router's pathname becomes `p`, then `ScrollToTop`
re-renders and commits. -/
def navigate (w : AppState) (p : String) : AppState :=
  scrollToTopCommit (some w.pathname) { w with pathname := p }

/-! ## The class-name helper -/

/-- The values passed to `cn`: strings, booleans, `null`, `undefined`. -/
inductive ClassArg where
  | str (s : String)
  | bool (b : Bool)
  | null
  | undefined
  deriving DecidableEq, Repr

/-- The function `Boolean` on these values. -/
def ClassArg.toBoolean : ClassArg → Bool
  | .str s => s != ""
  | .bool b => b
  | .null => false
  | .undefined => false

/-- The string an array element contributes to `join`: empty for `null` and
`undefined`, otherwise the value converted to a string. -/
def ClassArg.joinText : ClassArg → String
  | .str s => s
  | .bool true => "true"
  | .bool false => "false"
  | .null => ""
  | .undefined => ""

/-- The loop of `Array.prototype.join`: `acc` is the result so far and `k` the
index of the next element; the separator is added before every element but
the first. -/
def joinLoop (sep : String) : String → Nat → List ClassArg → String
  | acc, _, [] => acc
  | acc, k, x :: xs =>
      joinLoop sep ((if 0 < k then acc ++ sep else acc) ++ x.joinText) (k + 1) xs

/-- The method `join(sep)` of an array. -/
def arrayJoin (sep : String) (xs : List ClassArg) : String := joinLoop sep "" 0 xs

/-- The helper `cn = (...cls) => cls.filter(Boolean).join(" ")`. -/
def cn (cls : List ClassArg) : String :=
  arrayJoin " " (cls.filter ClassArg.toBoolean)

/-- The description of `cn` in words: the truthy arguments, in their order,
joined by single spaces. -/
def cnSpec : List ClassArg → String
  | [] => ""
  | x :: xs =>
      if x.toBoolean then
        (if (xs.filter ClassArg.toBoolean).isEmpty then x.joinText
         else x.joinText ++ " " ++ cnSpec xs)
      else cnSpec xs

/-! ## Basic facts about objects -/

theorem getProp_spreadSet_same (o : JSObject) (k v : String) :
    getProp (spreadSet o k v) k = some v := by
  induction o with
  | nil => simp [spreadSet, getProp]
  | cons p rest ih =>
      obtain ⟨k', v'⟩ := p
      by_cases h : k' = k
      · simp [spreadSet, getProp, h]
      · simp [spreadSet, getProp, h, ih]

theorem getProp_spreadSet_other (o : JSObject) (k k2 v : String) (hne : k2 ≠ k) :
    getProp (spreadSet o k v) k2 = getProp o k2 := by
  induction o with
  | nil => simp [spreadSet, getProp, hne.symm]
  | cons p rest ih =>
      obtain ⟨k', v'⟩ := p
      by_cases h : k' = k
      · subst h
        simp [spreadSet, getProp, hne.symm]
      · by_cases h2 : k' = k2
        · subst h2
          simp [spreadSet, getProp, hne]
        · simp [spreadSet, getProp, h, h2, ih]

theorem validationFails_iff (fd : JSObject) (n e m : String)
    (hn : getProp fd "name" = some n) (he : getProp fd "email" = some e)
    (hm : getProp fd "message" = some m) :
    validationFails fd = true ↔ n = "" ∨ e = "" ∨ m = "" := by
  simp [validationFails, hn, he, hm, truthy, or_assoc]

theorem handleSubmit_of_valid (s : ContactState) (hv : validationFails s.formData = false) :
    handleSubmit s =
      { formData := emptyForm, error := "", sent := true, now := s.now,
        timers := s.timers ++ [s.now + confirmDelay], mounted := s.mounted } := by
  simp [handleSubmit, hv]

theorem handleSubmit_of_invalid (s : ContactState) (hv : validationFails s.formData = true) :
    handleSubmit s = { s with error := warningText } := by
  simp [handleSubmit, hv]

theorem warningText_ne_empty : warningText ≠ "" := by decide

/-! ## Transitions and runs -/

/-- Inversion of `step`: the shape of the successor for each event. -/
theorem step_cases {s s' : ContactState} {ev : Event} (h : step s ev = some s') :
    (∃ f v, ev = .change f v ∧ s.mounted = true ∧ s' = handleChange s f.key v) ∨
    (ev = .submit ∧ s.mounted = true ∧ s' = handleSubmit s) ∨
    (∃ i due, ev = .fire i ∧ s.timers[i]? = some due ∧ due ≤ s.now ∧
      s' = (if s.mounted then timerCallback { s with timers := s.timers.eraseIdx i }
            else { s with timers := s.timers.eraseIdx i })) ∨
    (∃ d, ev = .advance d ∧ s' = { s with now := s.now + d }) ∨
    (ev = .unmount ∧ s.mounted = true ∧ s' = unmount s) := by
  cases ev with
  | change f v =>
      left
      by_cases hm : s.mounted = true
      · simp [step, hm] at h
        exact ⟨f, v, rfl, hm, h.symm⟩
      · simp [step, hm] at h
  | submit =>
      right; left
      by_cases hm : s.mounted = true
      · simp [step, hm] at h
        exact ⟨rfl, hm, h.symm⟩
      · simp [step, hm] at h
  | fire i =>
      right; right; left
      cases hg : s.timers[i]? with
      | none => simp [step, hg] at h
      | some due =>
          by_cases hd : due ≤ s.now
          · simp only [step, hg, hd, if_true, Option.some.injEq] at h
            exact ⟨i, due, rfl, hg, hd, h.symm⟩
          · simp [step, hg, hd] at h
  | advance d =>
      right; right; right; left
      simp [step] at h
      exact ⟨d, rfl, h.symm⟩
  | unmount =>
      right; right; right; right
      by_cases hm : s.mounted = true
      · simp [step, hm] at h
        exact ⟨rfl, hm, h.symm⟩
      · simp [step, hm] at h

/-- A property kept by every transition is kept by every run. -/
theorem run_preserves (P : ContactState → Prop)
    (hstep : ∀ s ev s', P s → step s ev = some s' → P s') :
    ∀ (es : List Event) (s s' : ContactState), P s → run s es = some s' → P s' := by
  intro es
  induction es with
  | nil =>
      intro s s' hP h
      simp [run] at h
      exact h ▸ hP
  | cons ev es ih =>
      intro s s' hP h
      cases hs : step s ev with
      | none => simp [run, hs] at h
      | some s1 =>
          simp [run, hs] at h
          exact ih s1 s' (hstep s ev s1 hP hs) h

/-- The flag is set or the clock has reached `D`; no pending timer is due
before `D`; a timer scheduled now is not due before `D`. -/
def HoldsUntil (D : Nat) (s : ContactState) : Prop :=
  (s.sent = true ∨ D ≤ s.now) ∧ (∀ d ∈ s.timers, D ≤ d) ∧ D ≤ s.now + confirmDelay

theorem holdsUntil_step (D : Nat) (s : ContactState) (ev : Event) (s' : ContactState)
    (hP : HoldsUntil D s) (h : step s ev = some s') : HoldsUntil D s' := by
  obtain ⟨h1, h2, h3⟩ := hP
  rcases step_cases h with ⟨f, v, -, -, rfl⟩ | ⟨-, -, rfl⟩ | ⟨i, due, -, hg, hd, rfl⟩ |
    ⟨d, -, rfl⟩ | ⟨-, -, rfl⟩
  · exact ⟨h1, h2, h3⟩
  · unfold handleSubmit
    split
    · exact ⟨h1, h2, h3⟩
    · refine ⟨Or.inl rfl, ?_, h3⟩
      intro d hd
      simp only [List.mem_append, List.mem_singleton] at hd
      rcases hd with hd | hd
      · exact h2 d hd
      · rw [hd]; exact h3
  · have hD : D ≤ s.now := le_trans (h2 due (List.getElem?_mem hg)) hd
    have ht : ∀ d ∈ s.timers.eraseIdx i, D ≤ d := fun d hd =>
      h2 d (List.mem_of_mem_eraseIdx hd)
    split
    · exact ⟨Or.inr hD, ht, h3⟩
    · exact ⟨Or.inr hD, ht, h3⟩
  · refine ⟨?_, h2, ?_⟩
    · rcases h1 with h1 | h1
      · exact Or.inl h1
      · exact Or.inr (Nat.le_add_right_of_le h1)
    · show D ≤ s.now + d + confirmDelay
      omega
  · exact ⟨h1, h2, h3⟩

/-! ## Submitting and editing -/

/-- C1: when at least one of name, email, message is the empty string,
`handleSubmit` only sets the error message to the fixed non-empty warning: the
form data, the confirmation flag and the pending timers stay as they were; from
the form `{name: "", email: "a@b.com", message: "hi"}` with the flag false, the
flag is false afterwards. -/
theorem handleSubmit_empty_field (s : ContactState)
    (h : getProp s.formData "name" = some "" ∨ getProp s.formData "email" = some "" ∨
      getProp s.formData "message" = some "") :
    handleSubmit s = { s with error := warningText } ∧
      (handleSubmit s).formData = s.formData ∧
      (handleSubmit s).error = warningText ∧ (handleSubmit s).error ≠ "" ∧
      (handleSubmit s).sent = s.sent ∧
      (handleSubmit s).timers = s.timers ∧
      (handleSubmit (formWith "" "a@b.com" "hi")).sent = false := by
  have hv : validationFails s.formData = true := by
    rcases h with h | h | h <;> simp [validationFails, h, truthy]
  have hs : handleSubmit s = { s with error := warningText } := by
    simp [handleSubmit, hv]
  refine ⟨hs, ?_, ?_, ?_, ?_, ?_, by decide⟩ <;> rw [hs]
  exact warningText_ne_empty

/-- C1 at the form `{name: "", email: "a@b.com", message: "hi"}`. -/
theorem handleSubmit_empty_field_witness :
    (getProp (formWith "" "a@b.com" "hi").formData "name" = some "" ∨
      getProp (formWith "" "a@b.com" "hi").formData "email" = some "" ∨
      getProp (formWith "" "a@b.com" "hi").formData "message" = some "") ∧
    (handleSubmit (formWith "" "a@b.com" "hi")).formData = (formWith "" "a@b.com" "hi").formData ∧
    (handleSubmit (formWith "" "a@b.com" "hi")).error = warningText :=
  ⟨Or.inl (by decide),
    (handleSubmit_empty_field (formWith "" "a@b.com" "hi") (Or.inl (by decide))).2.1,
    (handleSubmit_empty_field (formWith "" "a@b.com" "hi") (Or.inl (by decide))).2.2.1⟩

/-- C2: when name, email and message are all non-empty strings, `handleSubmit`
replaces the form data by `{name: "", email: "", message: ""}`, clears the error
message and sets the confirmation flag, whatever the error message and the flag
were before; it also schedules one callback 3000 ms ahead. -/
theorem handleSubmit_all_filled (s : ContactState) (n e m : String)
    (hn : getProp s.formData "name" = some n) (he : getProp s.formData "email" = some e)
    (hm : getProp s.formData "message" = some m)
    (hn0 : n ≠ "") (he0 : e ≠ "") (hm0 : m ≠ "") :
    (handleSubmit s).formData = [("name", ""), ("email", ""), ("message", "")] ∧
      getProp (handleSubmit s).formData "name" = some "" ∧
      getProp (handleSubmit s).formData "email" = some "" ∧
      getProp (handleSubmit s).formData "message" = some "" ∧
      (handleSubmit s).error = "" ∧
      (handleSubmit s).sent = true ∧
      (handleSubmit s).timers = s.timers ++ [s.now + 3000] := by
  have hv : validationFails s.formData = false := by
    rw [Bool.eq_false_iff, Ne, validationFails_iff s.formData n e m hn he hm]
    simp [hn0, he0, hm0]
  simp [handleSubmit, hv, emptyForm, confirmDelay, getProp]

/-- C2 at the form `{name: "Ali", email: "a@b.com", message: "hi"}`. -/
theorem handleSubmit_all_filled_witness :
    (handleSubmit (formWith "Ali" "a@b.com" "hi")).formData
        = [("name", ""), ("email", ""), ("message", "")] ∧
      (handleSubmit (formWith "Ali" "a@b.com" "hi")).error = "" ∧
      (handleSubmit (formWith "Ali" "a@b.com" "hi")).sent = true :=
  have h := handleSubmit_all_filled (formWith "Ali" "a@b.com" "hi") "Ali" "a@b.com" "hi"
    (by decide) (by decide) (by decide) (by decide) (by decide) (by decide)
  ⟨h.1, h.2.2.2.2.1, h.2.2.2.2.2.1⟩

/-- C3: `handleChange` on field `f` with value `v` gives a state whose field
`f` is `v`, whose other two fields are unchanged and whose error message and
confirmation flag (and clock and timers) are unchanged; so an edit never clears
a displayed error message. -/
theorem handleChange_frame (s : ContactState) (f : Field) (v : String) :
    getProp (handleChange s f.key v).formData f.key = some v ∧
      (∀ g : Field, g ≠ f →
        getProp (handleChange s f.key v).formData g.key = getProp s.formData g.key) ∧
      (handleChange s f.key v).error = s.error ∧
      (handleChange s f.key v).sent = s.sent ∧
      (handleChange s f.key v).timers = s.timers ∧
      (handleChange s f.key v).now = s.now := by
  refine ⟨getProp_spreadSet_same _ _ _, ?_, rfl, rfl, rfl, rfl⟩
  intro g hg
  apply getProp_spreadSet_other
  intro hk
  apply hg
  cases g <;> cases f <;> first | rfl | (exact absurd hk (by decide))

/-- C3 at an edit of the email field of a form that shows the warning: the name
and the warning stay. -/
theorem handleChange_frame_witness :
    getProp (handleChange bothShown "email" "a@b.com").formData "email" = some "a@b.com" ∧
      getProp (handleChange bothShown "email" "a@b.com").formData "name"
        = getProp bothShown.formData "name" ∧
      (handleChange bothShown "email" "a@b.com").error = warningText :=
  have h := handleChange_frame bothShown Field.email "a@b.com"
  ⟨h.1, h.2.1 Field.name (by decide), h.2.2.1⟩

/-- C4: with the three fields defined, the guard of `handleSubmit` holds exactly
when one of them is the empty string, and the warning is the resulting error
message exactly in that case; with all three non-empty the submit succeeds
whatever the email looks like. -/
theorem validation_is_nonemptiness (s : ContactState) (n e m : String)
    (hn : getProp s.formData "name" = some n) (he : getProp s.formData "email" = some e)
    (hm : getProp s.formData "message" = some m) :
    (validationFails s.formData = true ↔ n = "" ∨ e = "" ∨ m = "") ∧
      ((handleSubmit s).error = warningText ↔ n = "" ∨ e = "" ∨ m = "") ∧
      (n ≠ "" → e ≠ "" → m ≠ "" →
        (handleSubmit s).sent = true ∧ (handleSubmit s).error = "" ∧
          (handleSubmit s).formData = emptyForm) := by
  have hiff := validationFails_iff s.formData n e m hn he hm
  refine ⟨hiff, ?_, ?_⟩
  · by_cases hv : validationFails s.formData = true
    · simp [handleSubmit, hv, ← hiff]
    · have hne : ("" : String) ≠ warningText := by decide
      simp [handleSubmit, hv, ← hiff, hne]
  · intro hn0 he0 hm0
    have hv : ¬ validationFails s.formData = true := by
      rw [hiff]; simp [hn0, he0, hm0]
    simp [handleSubmit, hv]

/-- C4 at an email without an at-sign and at an email made of blanks. -/
theorem validation_is_nonemptiness_witness :
    ((handleSubmit (formWith "Ali" "not-an-address" "hi")).sent = true ∧
      (handleSubmit (formWith "Ali" "not-an-address" "hi")).error = "") ∧
    ((handleSubmit (formWith "Ali" "   " "hi")).sent = true ∧
      (handleSubmit (formWith "Ali" "   " "hi")).error = "") :=
  have h1 := (validation_is_nonemptiness (formWith "Ali" "not-an-address" "hi")
    "Ali" "not-an-address" "hi" (by decide) (by decide) (by decide)).2.2
    (by decide) (by decide) (by decide)
  have h2 := (validation_is_nonemptiness (formWith "Ali" "   " "hi")
    "Ali" "   " "hi" (by decide) (by decide) (by decide)).2.2
    (by decide) (by decide) (by decide)
  ⟨⟨h1.1, h1.2.1⟩, ⟨h2.1, h2.2.1⟩⟩

/-! ## The confirmation timer -/

/-- C5 as stated fails: a second successful submit at time 2000, made while the
timer of a submit at time 0 is pending, sets the flag and schedules a timer for
5000; at time 3000 the first timer fires and the flag is false, 1000 ms after
the second submit and with its timer still pending. -/
theorem confirmation_cut_short_by_earlier_timer :
    (run initialState (fillForm ++ [.submit, .advance 2000] ++ fillForm)).map
        (fun s => (validationFails s.formData, s.now, s.timers)) = some (false, 2000, [3000]) ∧
      (run initialState resubmitRun).map (fun s => (s.sent, s.now, s.timers))
        = some (true, 2000, [3000, 5000]) ∧
      (run initialState (resubmitRun ++ [.advance 1000, .fire 0])).map
        (fun s => (s.sent, s.now, s.timers)) = some (false, 3000, [5000]) ∧
      3000 < 2000 + 3000 := by
  decide

/-- C5, amended: a successful submit sets the flag and schedules one timer
3000 ms ahead; if no timer pending at that moment is due before `D`, and `D` is
at most 3000 ms ahead, then in every later state in which the flag is false the
clock has reached `D` (so with no earlier timer pending the flag is not false
before 3000 ms have passed); and right after any timer fires on the mounted
component the flag is false. -/
theorem confirmation_lower_bound (s : ContactState) (D : Nat)
    (hv : validationFails s.formData = false)
    (hD : ∀ d ∈ s.timers, D ≤ d) (hD2 : D ≤ s.now + 3000) :
    (handleSubmit s).sent = true ∧
      (handleSubmit s).timers = s.timers ++ [s.now + 3000] ∧
      (∀ (es : List Event) (s' : ContactState),
        run (handleSubmit s) es = some s' → s'.sent = false → D ≤ s'.now) ∧
      (∀ (s1 s2 : ContactState) (i : Nat),
        s1.mounted = true → step s1 (.fire i) = some s2 → s2.sent = false) := by
  have hs := handleSubmit_of_valid s hv
  refine ⟨by rw [hs], by rw [hs]; rfl, ?_, ?_⟩
  · intro es s' hrun hsent
    have h0 : HoldsUntil D (handleSubmit s) := by
      rw [hs]
      refine ⟨Or.inl rfl, ?_, hD2⟩
      intro d hd
      simp only [List.mem_append, List.mem_singleton] at hd
      rcases hd with hd | hd
      · exact hD d hd
      · rw [hd]; exact hD2
    have h1 := run_preserves (HoldsUntil D) (holdsUntil_step D) es _ s' h0 hrun
    rcases h1.1 with h | h
    · rw [hsent] at h; exact absurd h (by decide)
    · exact h
  · intro s1 s2 i hm hstep
    rcases step_cases hstep with ⟨_, _, h, _⟩ | ⟨h, _⟩ | ⟨_, _, _, _, _, rfl⟩ | ⟨_, h, _⟩ | ⟨h, _⟩
    · cases h
    · cases h
    · simp [hm, timerCallback]
    · cases h
    · cases h

/-- C5, amended, at a filled form with no timer pending: until time 3000 the
flag stays set. -/
theorem confirmation_lower_bound_witness :
    (validationFails (formWith "Ali" "a@b.com" "hi").formData = false) ∧
      (∀ (es : List Event) (s' : ContactState),
        run (handleSubmit (formWith "Ali" "a@b.com" "hi")) es = some s' →
          s'.sent = false → 3000 ≤ s'.now) :=
  ⟨by decide,
    (confirmation_lower_bound (formWith "Ali" "a@b.com" "hi") 3000 (by decide)
      (by intro d hd; cases hd) (by decide)).2.2.1⟩

/-- C6 as stated fails: after a successful submit at time 0 and an unmount, the
timer due at 3000 is still pending, and it does fire at time 3000. -/
theorem timer_survives_unmount :
    (run initialState (fillForm ++ [.submit, .unmount])).map
        (fun s => (s.mounted, s.timers)) = some (false, [3000]) ∧
      (run initialState (fillForm ++ [.submit, .unmount, .advance 3000, .fire 0])).map
        (fun s => (s.mounted, s.timers)) = some (false, []) := by
  decide

/-- C6, amended: unmounting changes nothing but the mounted flag; every timer
pending before it is pending after it and still fires once due. -/
theorem unmount_keeps_timers (s s' : ContactState) (h : step s .unmount = some s') :
    s'.mounted = false ∧ s'.timers = s.timers ∧ s'.formData = s.formData ∧
      s'.error = s.error ∧ s'.sent = s.sent ∧ s'.now = s.now ∧
      (∀ (i due d : Nat), s.timers[i]? = some due → due ≤ s.now + d →
        ∃ s2, run s' [.advance d, .fire i] = some s2 ∧ s2.timers = s.timers.eraseIdx i) := by
  rcases step_cases h with ⟨_, _, h, _⟩ | ⟨h, _⟩ | ⟨_, _, h, _⟩ | ⟨_, h, _⟩ | ⟨_, _, rfl⟩
  · cases h
  · cases h
  · cases h
  · cases h
  · refine ⟨rfl, rfl, rfl, rfl, rfl, rfl, ?_⟩
    intro i due d hg hd
    simp [run, step, unmount, hg, hd]

/-- C6, amended, at the form just submitted at time 0. -/
theorem unmount_keeps_timers_witness :
    step justSubmitted .unmount = some (unmount justSubmitted) ∧
      (unmount justSubmitted).timers = [3000] :=
  ⟨by decide, (unmount_keeps_timers justSubmitted (unmount justSubmitted) (by decide)).2.1⟩

/-! ## Invariants of the controller -/

theorem errorKnown_step (s : ContactState) (ev : Event) (s' : ContactState)
    (hP : s.error = "" ∨ s.error = warningText) (h : step s ev = some s') :
    s'.error = "" ∨ s'.error = warningText := by
  rcases step_cases h with ⟨f, v, -, -, rfl⟩ | ⟨-, -, rfl⟩ | ⟨i, due, -, -, -, rfl⟩ |
    ⟨d, -, rfl⟩ | ⟨-, -, rfl⟩
  · exact hP
  · unfold handleSubmit
    split
    · exact Or.inr rfl
    · exact Or.inl rfl
  · split <;> exact hP
  · exact hP
  · exact hP

theorem flagHasTimer_step (s : ContactState) (ev : Event) (s' : ContactState)
    (hP : s.mounted = true → s.sent = true → s.timers ≠ []) (h : step s ev = some s') :
    s'.mounted = true → s'.sent = true → s'.timers ≠ [] := by
  rcases step_cases h with ⟨f, v, -, -, rfl⟩ | ⟨-, -, rfl⟩ | ⟨i, due, -, -, -, rfl⟩ |
    ⟨d, -, rfl⟩ | ⟨-, -, rfl⟩
  · exact hP
  · unfold handleSubmit
    split
    · exact hP
    · intro _ _
      simp
  · split
    · intro _ hs
      simp [timerCallback] at hs
    · rename_i hm
      intro hm'
      exact absurd hm' hm
  · exact hP
  · intro hm
    simp [unmount] at hm

theorem fieldsDefined_step (s : ContactState) (ev : Event) (s' : ContactState)
    (hP : FieldsDefined s) (h : step s ev = some s') : FieldsDefined s' := by
  rcases step_cases h with ⟨f, v, -, -, rfl⟩ | ⟨-, -, rfl⟩ | ⟨i, due, -, -, -, rfl⟩ |
    ⟨d, -, rfl⟩ | ⟨-, -, rfl⟩
  · obtain ⟨n, e, m, hn, he, hm⟩ := hP
    cases f
    · exact ⟨v, e, m, getProp_spreadSet_same _ _ _,
        (getProp_spreadSet_other _ _ _ _ (by decide)).trans he,
        (getProp_spreadSet_other _ _ _ _ (by decide)).trans hm⟩
    · exact ⟨n, v, m, (getProp_spreadSet_other _ _ _ _ (by decide)).trans hn,
        getProp_spreadSet_same _ _ _,
        (getProp_spreadSet_other _ _ _ _ (by decide)).trans hm⟩
    · exact ⟨n, e, v, (getProp_spreadSet_other _ _ _ _ (by decide)).trans hn,
        (getProp_spreadSet_other _ _ _ _ (by decide)).trans he,
        getProp_spreadSet_same _ _ _⟩
  · unfold handleSubmit
    split
    · exact hP
    · exact ⟨"", "", "", rfl, rfl, rfl⟩
  · split <;> exact hP
  · exact hP
  · exact hP

theorem fieldsDefined_initial : FieldsDefined initialState :=
  ⟨"", "", "", rfl, rfl, rfl⟩

/-- Along a run, every pending timer is due at most `confirmDelay` after the
latest successful submit. -/
theorem timers_le_lastSuccess :
    ∀ (es : List Event) (s s' : ContactState) (t : Nat),
      t ≤ s.now → (∀ d ∈ s.timers, d ≤ t + confirmDelay) → run s es = some s' →
      ∀ d ∈ s'.timers, d ≤ lastSuccess s t es + confirmDelay := by
  intro es
  induction es with
  | nil =>
      intro s s' t _ ht h
      simp [run] at h
      subst h
      simpa [lastSuccess] using ht
  | cons ev es ih =>
      intro s s' t htn ht h
      cases hs : step s ev with
      | none => simp [run, hs] at h
      | some s1 =>
          simp only [run, hs, Option.some_bind] at h
          simp only [lastSuccess, hs]
          refine ih s1 s' _ ?_ ?_ h
          · rcases step_cases hs with ⟨f, v, rfl, -, rfl⟩ | ⟨rfl, -, rfl⟩ |
              ⟨i, due, rfl, -, -, rfl⟩ | ⟨d, rfl, rfl⟩ | ⟨rfl, -, rfl⟩
            · simpa [handleChange] using htn
            · by_cases hv : validationFails s.formData = false
              · simp [hv, handleSubmit_of_valid s hv]
              · have hv' : validationFails s.formData = true := by simpa using hv
                simpa [hv', handleSubmit_of_invalid s hv'] using htn
            · by_cases hm : s.mounted = true <;> simpa [hm, timerCallback] using htn
            · simp only [reduceCtorEq, false_and, if_false]
              omega
            · simpa [unmount] using htn
          · rcases step_cases hs with ⟨f, v, rfl, -, rfl⟩ | ⟨rfl, -, rfl⟩ |
              ⟨i, due, rfl, -, -, rfl⟩ | ⟨d, rfl, rfl⟩ | ⟨rfl, -, rfl⟩
            · simpa [handleChange] using ht
            · by_cases hv : validationFails s.formData = false
              · simp only [hv, and_self, if_true, handleSubmit_of_valid s hv]
                intro d hd
                simp only [List.mem_append, List.mem_singleton] at hd
                rcases hd with hd | hd
                · have := ht d hd
                  omega
                · omega
              · have hv' : validationFails s.formData = true := by simpa using hv
                simpa [hv', handleSubmit_of_invalid s hv'] using ht
            · have hsub : ∀ d ∈ s.timers.eraseIdx i, d ≤ t + confirmDelay := fun d hd =>
                ht d (List.mem_of_mem_eraseIdx hd)
              by_cases hm : s.mounted = true <;> simpa [hm, timerCallback] using hsub
            · simpa using ht
            · simpa [unmount] using ht

/-- A run made of timer firings and clock advances leaves the form data and the
error message alone. -/
theorem quiet_run_frame :
    ∀ (es : List Event) (s s' : ContactState),
      (∀ ev ∈ es, ev.isTimerOrClock = true) → run s es = some s' →
      s'.formData = s.formData ∧ s'.error = s.error := by
  intro es
  induction es with
  | nil =>
      intro s s' _ h
      simp [run] at h
      subst h
      exact ⟨rfl, rfl⟩
  | cons ev es ih =>
      intro s s' hq h
      cases hs : step s ev with
      | none => simp [run, hs] at h
      | some s1 =>
          simp only [run, hs, Option.some_bind] at h
          have h1 := ih s1 s' (fun e he => hq e (List.mem_cons_of_mem _ he)) h
          have hev := hq ev (List.mem_cons_self _ _)
          rcases step_cases hs with ⟨f, v, rfl, -, -⟩ | ⟨rfl, -, -⟩ |
            ⟨i, due, rfl, -, -, rfl⟩ | ⟨d, rfl, rfl⟩ | ⟨rfl, -, -⟩
          · simp [Event.isTimerOrClock] at hev
          · simp [Event.isTimerOrClock] at hev
          · rw [h1.1, h1.2]
            split <;> exact ⟨rfl, rfl⟩
          · exact h1
          · simp [Event.isTimerOrClock] at hev

/-! ## Claims about routes, states and the timer callback -/

/-- C7: the route table has exactly five entries, with the pairwise distinct
paths "/", "/about", "/projects", "/skills", "/contact" in this order, and at
each of these paths route selection gives exactly one page, the corresponding
one: Home, About, Projects, Skills, Contact. -/
theorem route_table :
    routes.length = 5 ∧
      routes.map (fun r => r.path) = ["/", "/about", "/projects", "/skills", "/contact"] ∧
      (routes.map fun r => r.path).Nodup ∧
      selectPages "/" = [Page.Home] ∧
      selectPages "/about" = [Page.About] ∧
      selectPages "/projects" = [Page.Projects] ∧
      selectPages "/skills" = [Page.Skills] ∧
      selectPages "/contact" = [Page.Contact] ∧
      (∀ r ∈ routes, selectPages r.path = [r.element]) := by
  decide

/-- C7 at the entry for "/skills". -/
theorem route_table_witness :
    (⟨"/skills", Page.Skills⟩ : Route) ∈ routes ∧ selectPages "/skills" = [Page.Skills] :=
  ⟨by decide, route_table.2.2.2.2.2.2.2.2 ⟨"/skills", Page.Skills⟩ (by decide)⟩

/-- C8 as stated fails: a successful submit followed by a submit of the cleared
form reaches a state with the warning set and the flag true, which is none of
Editing, Invalid, Submitted. -/
theorem warning_and_confirmation_together :
    run initialState (fillForm ++ [.submit, .submit]) = some bothShown ∧
      bothShown.error ≠ "" ∧ bothShown.sent = true ∧
      ¬ Editing bothShown ∧ ¬ Invalid bothShown ∧ ¬ Submitted bothShown := by
  refine ⟨by decide, by decide, by decide, ?_, ?_, ?_⟩
  · intro h; exact absurd h.2 (by decide)
  · intro h; exact absurd h.2 (by decide)
  · intro h; exact absurd h.2 (by decide)

/-- The fourth combination is entered only by a failed submit made in
Submitted, which changes nothing but the error message. -/
theorem enter_submittedInvalid {s s' : ContactState} {ev : Event}
    (h : step s ev = some s') (h' : SubmittedInvalid s') (hn : ¬ SubmittedInvalid s) :
    ev = Event.submit ∧ Submitted s ∧ validationFails s.formData = true ∧
      s' = { s with error := warningText } := by
  rcases step_cases h with ⟨f, v, rfl, -, rfl⟩ | ⟨rfl, -, rfl⟩ | ⟨i, due, rfl, -, -, rfl⟩ |
    ⟨d, rfl, rfl⟩ | ⟨rfl, -, rfl⟩
  · exact absurd (show SubmittedInvalid s from ⟨h'.1, h'.2⟩) hn
  · by_cases hv : validationFails s.formData = true
    · rw [handleSubmit_of_invalid s hv] at h'
      have hsent : s.sent = true := h'.1
      have herr : s.error = "" := by
        by_contra hne
        exact hn ⟨hsent, hne⟩
      exact ⟨rfl, ⟨hsent, herr⟩, hv, handleSubmit_of_invalid s hv⟩
    · have hv' : validationFails s.formData = false := by simpa using hv
      rw [handleSubmit_of_valid s hv'] at h'
      exact absurd rfl h'.2
  · by_cases hm : s.mounted = true
    · simp only [hm, if_true] at h'
      exact absurd h'.1 (by simp [timerCallback])
    · simp only [hm] at h'
      exact absurd (show SubmittedInvalid s from ⟨h'.1, h'.2⟩) hn
  · exact absurd (show SubmittedInvalid s from ⟨h'.1, h'.2⟩) hn
  · exact absurd (show SubmittedInvalid s from ⟨h'.1, h'.2⟩) hn

/-- The fourth combination is left only by a timer firing, to Invalid, or by a
successful submit, to Submitted. -/
theorem leave_submittedInvalid {s s' : ContactState} {ev : Event}
    (h : step s ev = some s') (hs : SubmittedInvalid s) :
    SubmittedInvalid s' ∨ (Invalid s' ∧ ∃ i, ev = Event.fire i) ∨
      (Submitted s' ∧ ev = Event.submit) := by
  rcases step_cases h with ⟨f, v, rfl, -, rfl⟩ | ⟨rfl, -, rfl⟩ | ⟨i, due, rfl, -, -, rfl⟩ |
    ⟨d, rfl, rfl⟩ | ⟨rfl, -, rfl⟩
  · exact Or.inl ⟨hs.1, hs.2⟩
  · by_cases hv : validationFails s.formData = true
    · rw [handleSubmit_of_invalid s hv]
      exact Or.inl ⟨hs.1, warningText_ne_empty⟩
    · have hv' : validationFails s.formData = false := by simpa using hv
      rw [handleSubmit_of_valid s hv']
      exact Or.inr (Or.inr ⟨⟨rfl, rfl⟩, rfl⟩)
  · by_cases hm : s.mounted = true
    · simp only [hm, if_true]
      exact Or.inr (Or.inl ⟨⟨hs.2, rfl⟩, i, rfl⟩)
    · simp only [hm]
      exact Or.inl ⟨hs.1, hs.2⟩
  · exact Or.inl ⟨hs.1, hs.2⟩
  · exact Or.inl ⟨hs.1, hs.2⟩

/-- C8, amended: in every reachable state the error message is empty or the
fixed warning, and the controller is in exactly one of Editing, Invalid (with
the fixed warning), Submitted, or the fourth combination (flag true and the
fixed warning shown); on the mounted component the flag is true only while a
confirmation timer is pending; a transition enters the fourth combination only
as a failed submit made in Submitted, every failed submit made in Submitted
enters it, and it is left only by a timer firing, to Invalid, or by a
successful submit, to Submitted. -/
theorem four_state_classification (s : ContactState) (h : Reachable s) :
    (s.error = "" ∨ s.error = warningText) ∧
      ((Editing s ∧ ¬ Invalid s ∧ ¬ Submitted s ∧ ¬ SubmittedInvalid s) ∨
        (¬ Editing s ∧ (Invalid s ∧ s.error = warningText) ∧ ¬ Submitted s ∧
          ¬ SubmittedInvalid s) ∨
        (¬ Editing s ∧ ¬ Invalid s ∧ Submitted s ∧ ¬ SubmittedInvalid s) ∨
        (¬ Editing s ∧ ¬ Invalid s ∧ ¬ Submitted s ∧
          (SubmittedInvalid s ∧ s.error = warningText))) ∧
      (s.mounted = true → s.sent = true → s.timers ≠ []) ∧
      (∀ (ev : Event) (s' : ContactState), step s ev = some s' →
        SubmittedInvalid s' → ¬ SubmittedInvalid s →
          ev = Event.submit ∧ Submitted s ∧ validationFails s.formData = true ∧
            s' = { s with error := warningText }) ∧
      (∀ s' : ContactState, step s Event.submit = some s' → Submitted s →
        validationFails s.formData = true → SubmittedInvalid s') ∧
      (∀ (ev : Event) (s' : ContactState), step s ev = some s' → SubmittedInvalid s →
        SubmittedInvalid s' ∨ (Invalid s' ∧ ∃ i, ev = Event.fire i) ∨
          (Submitted s' ∧ ev = Event.submit)) := by
  obtain ⟨es, hrun⟩ := h
  have herr : s.error = "" ∨ s.error = warningText :=
    run_preserves (fun x => x.error = "" ∨ x.error = warningText) errorKnown_step
      es initialState s (Or.inl rfl) hrun
  refine ⟨herr, ?_, ?_, ?_, ?_, ?_⟩
  · have hw := warningText_ne_empty
    rcases herr with he | he <;> cases hs : s.sent <;>
      simp [Editing, Invalid, Submitted, SubmittedInvalid, he, hs, hw]
  · exact run_preserves (fun x => x.mounted = true → x.sent = true → x.timers ≠ [])
      flagHasTimer_step es initialState s (fun _ hs => absurd hs (by decide)) hrun
  · intro ev s' hstep h' hn
    exact enter_submittedInvalid hstep h' hn
  · intro s' hstep hsub hv
    rcases step_cases hstep with ⟨_, _, h, _⟩ | ⟨-, -, rfl⟩ | ⟨_, _, h, _⟩ | ⟨_, h, _⟩ | ⟨h, _⟩
    · cases h
    · rw [handleSubmit_of_invalid s hv]
      exact ⟨hsub.1, warningText_ne_empty⟩
    · cases h
    · cases h
    · cases h
  · intro ev s' hstep hs
    exact leave_submittedInvalid hstep hs

/-- C8, amended, at the form just submitted at time 0, where a submit of the
cleared form enters the fourth combination, and at the state so reached. -/
theorem four_state_classification_witness :
    Reachable justSubmitted ∧ Reachable bothShown ∧
      step justSubmitted Event.submit = some bothShown ∧
      SubmittedInvalid bothShown ∧
      bothShown.error = warningText ∧ bothShown.timers ≠ [] :=
  have hj : Reachable justSubmitted := ⟨fillForm ++ [.submit], by decide⟩
  have hr : Reachable bothShown := ⟨fillForm ++ [.submit, .submit], by decide⟩
  ⟨hj, hr, by decide,
    (four_state_classification justSubmitted hj).2.2.2.2.1 bothShown (by decide)
      ⟨by decide, by decide⟩ (by decide),
    (four_state_classification bothShown hr).1.resolve_left (by decide),
    (four_state_classification bothShown hr).2.2.1 (by decide) (by decide)⟩

/-- C9 as stated fails: after a successful submit at time 0 and no later submit,
the flag is still true at time 3001 when the browser has not yet run the
callback that became due at 3000. -/
theorem flag_outlives_three_seconds :
    (run initialState (fillForm ++ [.submit, .advance 3001])).map
        (fun s => (s.sent, s.now, s.timers)) = some (true, 3001, [3000]) ∧
      lastSuccess initialState 0 (fillForm ++ [.submit, .advance 3001]) = 0 ∧
      0 + 3000 < 3001 := by
  decide

/-- C9, amended: in every state reached by a run from the initial state the
three fields are defined strings; on the mounted component the flag is true
only while a timer is pending; every pending timer is due at most 3000 ms after
the latest successful submit of the run; hence once 3000 ms have passed since
that submit and no pending timer is overdue, the flag is false. -/
theorem contact_invariant (es : List Event) (s : ContactState)
    (h : run initialState es = some s) :
    FieldsDefined s ∧
      (s.mounted = true → s.sent = true → s.timers ≠ []) ∧
      (∀ d ∈ s.timers, d ≤ lastSuccess initialState 0 es + 3000) ∧
      (s.mounted = true → (∀ d ∈ s.timers, s.now < d) →
        lastSuccess initialState 0 es + 3000 ≤ s.now → s.sent = false) := by
  have h1 : FieldsDefined s :=
    run_preserves FieldsDefined fieldsDefined_step es initialState s fieldsDefined_initial h
  have h2 : s.mounted = true → s.sent = true → s.timers ≠ [] :=
    run_preserves (fun x => x.mounted = true → x.sent = true → x.timers ≠ [])
      flagHasTimer_step es initialState s (fun _ hs => absurd hs (by decide)) h
  have h3 : ∀ d ∈ s.timers, d ≤ lastSuccess initialState 0 es + 3000 :=
    timers_le_lastSuccess es initialState s 0 (Nat.le_refl _)
      (fun d hd => absurd hd (List.not_mem_nil d)) h
  refine ⟨h1, h2, h3, ?_⟩
  intro hm hfuture hlate
  cases hs : s.sent with
  | false => rfl
  | true =>
      exfalso
      have hne := h2 hm hs
      obtain ⟨d, hd⟩ := List.exists_mem_of_ne_nil _ hne
      have := h3 d hd
      have := hfuture d hd
      omega

/-- C9, amended, at the run: fill, submit at 0, wait 3000 ms, callback runs. -/
theorem contact_invariant_witness :
    run initialState (fillForm ++ [.submit, .advance 3000, .fire 0])
        = some { initialState with now := 3000 } ∧
      FieldsDefined { initialState with now := 3000 } ∧
      lastSuccess initialState 0 (fillForm ++ [.submit, .advance 3000, .fire 0]) = 0 ∧
      ({ initialState with now := 3000 } : ContactState).sent = false :=
  have h := contact_invariant (fillForm ++ [.submit, .advance 3000, .fire 0])
    { initialState with now := 3000 } (by decide)
  ⟨by decide, h.1, by decide,
    h.2.2.2 (by decide) (fun d hd => absurd hd (List.not_mem_nil d)) (by decide)⟩

/-- C10: the callback `() => setSent(false)` changes the flag only; when a
pending timer fires on the mounted component the flag becomes false, the timer
leaves the pending list, and the three field values, the error message and the
clock are what they were; after a successful submit followed only by timer
firings and the passing of time, the fields and the error message are still
cleared. -/
theorem timer_fire_frame (s s' : ContactState) (i : Nat) (hm : s.mounted = true)
    (h : step s (.fire i) = some s') :
    timerCallback s = { s with sent := false } ∧
      s'.sent = false ∧ s'.formData = s.formData ∧ s'.error = s.error ∧
      s'.now = s.now ∧ s'.mounted = s.mounted ∧ s'.timers = s.timers.eraseIdx i ∧
      (∀ (s0 s1 : ContactState) (es : List Event),
        validationFails s0.formData = false → (∀ ev ∈ es, ev.isTimerOrClock = true) →
        run (handleSubmit s0) es = some s1 → s1.formData = emptyForm ∧ s1.error = "") := by
  rcases step_cases h with ⟨_, _, h, _⟩ | ⟨h, _⟩ | ⟨j, _, hj, _, _, rfl⟩ | ⟨_, h, _⟩ | ⟨h, _⟩
  · cases h
  · cases h
  · cases hj
    refine ⟨rfl, ?_, ?_, ?_, ?_, ?_, ?_, ?_⟩ <;> try simp [hm, timerCallback]
    intro s0 s1 es hv hq hrun
    have hf := quiet_run_frame es _ s1 hq hrun
    rw [handleSubmit_of_valid s0 hv] at hf
    exact hf
  · cases h
  · cases h

/-- C10 at the form submitted at time 0, when its timer fires at time 3000. -/
theorem timer_fire_frame_witness :
    step { justSubmitted with now := 3000 } (.fire 0) = some { initialState with now := 3000 } ∧
      ({ initialState with now := 3000 } : ContactState).sent = false ∧
      ({ initialState with now := 3000 } : ContactState).formData = justSubmitted.formData :=
  have h := timer_fire_frame { justSubmitted with now := 3000 } { initialState with now := 3000 } 0
    (by decide) (by decide)
  ⟨by decide, h.2.1, h.2.2.1⟩

/-! ## Links and static data -/

/-- C11 as stated fails: the Email and GitHub anchors of `Footer` and the
address anchor of `Contact` are outbound and carry no `target`. -/
theorem outbound_anchors_without_target :
    ((⟨.Footer, "mailto:fatimabutt2k23@gmail.com", none⟩ : Anchor) ∈ allAnchors ∧
        isOutbound "mailto:fatimabutt2k23@gmail.com" = true) ∧
      ((⟨.Footer, "https://github.com/Fatimabutt786", none⟩ : Anchor) ∈ allAnchors ∧
        isOutbound "https://github.com/Fatimabutt786" = true) ∧
      ((⟨.Contact, "mailto:fatimabutt2k23@gmail.com", none⟩ : Anchor) ∈ allAnchors) ∧
      ¬ (∀ a ∈ allAnchors, isOutbound a.href = true → a.target = some "_blank") := by
  decide

/-- C11, amended: every anchor of `Projects` and `Contact` whose `href` is an
external http(s) URL, and the LinkedIn anchor of `Footer`, carries
`target="_blank"`; no `mailto:` anchor carries a `target`. -/
theorem external_anchors_open_new_context :
    (∀ a ∈ projectsAnchors ++ contactAnchors,
        isExternalHttp a.href = true → a.target = some "_blank") ∧
      (∀ a ∈ footerAnchors,
        a.href = "https://www.linkedin.com/in/fatima-shahzad-bb31a529b/" →
          a.target = some "_blank") ∧
      (∀ a ∈ allAnchors, isMailto a.href = true → a.target = none) ∧
      (∀ p ∈ projectList, isExternalHttp p.code = true) := by
  decide

/-- C11, amended, at the GitHub anchor of `Contact`. -/
theorem external_anchors_open_new_context_witness :
    (⟨.Contact, "https://github.com/Fatimabutt786", some "_blank"⟩ : Anchor).target
      = some "_blank" :=
  external_anchors_open_new_context.1 ⟨.Contact, "https://github.com/Fatimabutt786", some "_blank"⟩
    (by decide) (by decide)

/-- C12: the targets of the five `MagneticLink` entries of `Navbar` are exactly
the five route paths, and every `to` of a `Link` in the app (the logo, the four
buttons of `Home`, the `MagneticLink` entries) is one of the five route
paths. -/
theorem navigation_links_are_routes :
    navbarLinks = routes.map (fun r => r.path) ∧
      (∀ p : String, p ∈ navbarLinks ↔ p ∈ routes.map fun r => r.path) ∧
      (∀ p ∈ internalLinks, p ∈ routes.map fun r => r.path) ∧
      navbarLogo ∈ routes.map (fun r => r.path) ∧
      (∀ p ∈ homeLinks, p ∈ routes.map fun r => r.path) := by
  have h : navbarLinks = routes.map (fun r => r.path) := by decide
  refine ⟨h, ?_, by decide, by decide, by decide⟩
  intro p
  rw [h]

/-- C12 at the "Contact" button and the "View Projects" button of `Home`. -/
theorem navigation_links_are_routes_witness :
    "/contact" ∈ routes.map (fun r => r.path) ∧ "/projects" ∈ routes.map (fun r => r.path) :=
  ⟨navigation_links_are_routes.2.2.1 "/contact" (by decide),
    navigation_links_are_routes.2.2.2.2 "/projects" (by decide)⟩

/-- C14: every entry of `skills` has a non-empty name and an integer value
between 0 and 100, so every progress-bar width lies between 0% and 100%; the
six widths are 95%, 85%, 90%, 80%, 88%, 70%. -/
theorem skills_in_range :
    (∀ s ∈ skills, s.name ≠ "" ∧ 0 ≤ s.v ∧ s.v ≤ 100) ∧
      skills.map widthText = ["95%", "85%", "90%", "80%", "88%", "70%"] ∧
      skills.length = 6 := by
  decide

/-- C14 at the entry for React. -/
theorem skills_in_range_witness :
    (⟨"React", 80⟩ : Skill).name ≠ "" ∧ (0 : Int) ≤ 80 ∧ (80 : Int) ≤ 100 :=
  skills_in_range.1 ⟨"React", 80⟩ (by decide)

/-! ## Scroll reset and the class-name helper -/

/-- C13: a navigation that changes the pathname makes `ScrollToTop` issue
exactly one scroll request, with `top` 0 and smooth behaviour, appended to the
requests issued before; the `Contact` state is untouched, the pathname is the
one navigated to, and the component renders nothing. -/
theorem scroll_reset_on_path_change (w : AppState) (p : String) (h : p ≠ w.pathname) :
    (navigate w p).scrollCalls = w.scrollCalls ++ [⟨0, "smooth"⟩] ∧
      (navigate w p).contact = w.contact ∧
      (navigate w p).pathname = p ∧
      scrollToTopRender p = none := by
  have hne : ¬ (some w.pathname = some p) := by
    intro hp
    exact h (Option.some.inj hp).symm
  simp [navigate, scrollToTopCommit, scrollEffect, scrollToTopRender, hne]

/-- C13 at the navigation from "/" to "/contact" with no earlier request. -/
theorem scroll_reset_on_path_change_witness :
    ("/contact" ≠ (⟨"/", initialState, []⟩ : AppState).pathname) ∧
      (navigate ⟨"/", initialState, []⟩ "/contact").scrollCalls = [] ++ [⟨0, "smooth"⟩] ∧
      (navigate ⟨"/", initialState, []⟩ "/contact").contact = initialState :=
  have h := scroll_reset_on_path_change ⟨"/", initialState, []⟩ "/contact" (by decide)
  ⟨by decide, h.1, h.2.1⟩

theorem joinLoop_prepend (sep : String) :
    ∀ (xs : List ClassArg) (p acc : String) (k : Nat), 0 < k →
      joinLoop sep (p ++ acc) k xs = p ++ joinLoop sep acc k xs := by
  intro xs
  induction xs with
  | nil => intro p acc k _; simp [joinLoop]
  | cons x xs ih =>
      intro p acc k hk
      simp only [joinLoop, hk, if_true]
      rw [← ih p ((acc ++ sep) ++ x.joinText) (k + 1) (Nat.succ_pos k)]
      simp [String.append_assoc]

theorem joinLoop_index (sep : String) :
    ∀ (xs : List ClassArg) (acc : String) (k j : Nat), 0 < k → 0 < j →
      joinLoop sep acc k xs = joinLoop sep acc j xs := by
  intro xs
  induction xs with
  | nil => intro acc k j _ _; simp [joinLoop]
  | cons x xs ih =>
      intro acc k j hk hj
      simp only [joinLoop, hk, hj, if_true]
      exact ih _ (k + 1) (j + 1) (Nat.succ_pos k) (Nat.succ_pos j)

theorem joinLoop_eq_go (sep : String) :
    ∀ (xs : List ClassArg) (acc : String) (k : Nat),
      joinLoop sep acc (k + 1) xs
        = String.intercalate.go acc sep (xs.map ClassArg.joinText) := by
  intro xs
  induction xs with
  | nil => intro acc k; simp [joinLoop, String.intercalate.go]
  | cons x xs ih =>
      intro acc k
      simp [joinLoop, String.intercalate.go, ih]

theorem arrayJoin_eq_intercalate (sep : String) (xs : List ClassArg) :
    arrayJoin sep xs = sep.intercalate (xs.map ClassArg.joinText) := by
  cases xs with
  | nil => simp [arrayJoin, joinLoop, String.intercalate]
  | cons x xs =>
      simp [arrayJoin, joinLoop, String.intercalate, joinLoop_eq_go]

theorem arrayJoin_cons_cons (sep : String) (x y : ClassArg) (ys : List ClassArg) :
    arrayJoin sep (x :: y :: ys) = x.joinText ++ sep ++ arrayJoin sep (y :: ys) := by
  have h1 : arrayJoin sep (x :: y :: ys)
      = joinLoop sep ((x.joinText ++ sep) ++ y.joinText) 2 ys := by
    simp [arrayJoin, joinLoop]
  have h2 : arrayJoin sep (y :: ys) = joinLoop sep y.joinText 2 ys := by
    simp only [arrayJoin, joinLoop, Nat.lt_irrefl, if_false, String.empty_append]
    exact joinLoop_index sep ys _ 1 2 (by decide) (by decide)
  rw [h1, h2, joinLoop_prepend sep ys (x.joinText ++ sep) y.joinText 2 (by decide)]

theorem cn_eq_cnSpec : ∀ cls : List ClassArg, cn cls = cnSpec cls := by
  intro cls
  induction cls with
  | nil => rfl
  | cons x xs ih =>
      by_cases hx : x.toBoolean = true
      · cases hf : xs.filter ClassArg.toBoolean with
        | nil =>
            simp [cn, cnSpec, hx, hf, List.filter_cons, arrayJoin, joinLoop]
        | cons y ys =>
            have hcn : cn xs = arrayJoin " " (y :: ys) := by simp [cn, hf]
            simp only [cnSpec, hx, if_true, hf, List.isEmpty_cons, ← ih, hcn]
            simp only [cn, List.filter_cons, hx, if_true, hf]
            simpa using arrayJoin_cons_cons " " x y ys
      · have hx' : x.toBoolean = false := by simpa using hx
        simp only [cnSpec, hx', ← ih]
        simp [cn, List.filter_cons, hx']

/-- C15: `cn` equals its description in words (the truthy arguments, in their
order, joined by single spaces) and the library's `intercalate` of the truthy
arguments; a falsy argument anywhere contributes nothing and no separator;
`cn` of only falsy arguments is the empty string; `cn(a, false) = a` and
`cn(a, b) = a + " " + b` for non-empty strings `a`, `b`. -/
theorem cn_joins_truthy (cls : List ClassArg) (a b : String) :
    cn cls = cnSpec cls ∧
      cn cls = " ".intercalate ((cls.filter ClassArg.toBoolean).map ClassArg.joinText) ∧
      (∀ (pre post : List ClassArg) (v : ClassArg), v.toBoolean = false →
        cn (pre ++ v :: post) = cn (pre ++ post)) ∧
      ((∀ x ∈ cls, x.toBoolean = false) → cn cls = "") ∧
      (a ≠ "" → cn [.str a, .bool false] = a) ∧
      (a ≠ "" → b ≠ "" → cn [.str a, .str b] = a ++ " " ++ b) := by
  refine ⟨cn_eq_cnSpec cls, arrayJoin_eq_intercalate " " _, ?_, ?_, ?_, ?_⟩
  · intro pre post v hv
    simp [cn, List.filter_append, List.filter_cons, hv]
  · intro hall
    have hnil : cls.filter ClassArg.toBoolean = [] := by
      rw [List.filter_eq_nil_iff]
      intro x hx
      simp [hall x hx]
    simp [cn, hnil, arrayJoin, joinLoop]
  · intro ha
    simp [cn, List.filter_cons, ClassArg.toBoolean, ha, arrayJoin, joinLoop, ClassArg.joinText]
  · intro ha hb
    simp [cn, List.filter_cons, ClassArg.toBoolean, ha, hb, arrayJoin, joinLoop,
      ClassArg.joinText]

/-- C15 at the call made by `MagneticLink` when the pointer is away, and at a
list with one falsy value of each kind. -/
theorem cn_joins_truthy_witness :
    cn [.str "absolute inset-0", .bool false] = "absolute inset-0" ∧
      cn [.str "a", .str "b"] = "a" ++ " " ++ "b" ∧
      cn [.bool false, .str "", .null, .undefined] = "" :=
  have h := cn_joins_truthy [.bool false, .str "", .null, .undefined] "a" "b"
  ⟨(cn_joins_truthy [] "absolute inset-0" "b").2.2.2.2.1 (by decide),
    h.2.2.2.2.2 (by decide) (by decide),
    h.2.2.2.1 (by decide)⟩

end Portfolio
